import Mathlib

set_option maxRecDepth 100000

/-!
Verification of the nexus-harvester core against its specification.

The definitions below are a shallow embedding of the Python source under
`src/nexus_harvester/`:
  * `indexing/indexing_service.py` — `IndexingService.index_chunks`,
    `_process_result`, `IndexingResult`;
  * `processing/document_processor.py` — `DocumentProcessor.process_document`;
  * `models.py` — `ProcessingParameters` validation, `Chunk`;
  * `utils/rate_limiting.py` — `TokenBucket`;
  * `api/ingest.py` — `ingest_document` input resolution and the
    `process_and_index_document` background coordinator.

Python dictionaries and JSON-like payloads are modelled by `PyVal`;
exceptions by `Except`; float arithmetic of the token bucket by `ℚ`;
`uuid4()` draws by a fresh-identifier supply threaded as a counter.
-/

namespace NexusHarvester

/-- A Python value as it appears in backend payloads and job results:
strings, integers, `None`, lists and string-keyed dictionaries. -/
inductive PyVal where
  | str (s : String)
  | num (n : Int)
  | none
  | list (xs : List PyVal)
  | dict (entries : List (String × PyVal))

/-- Equality test on `PyVal`, by structural recursion. -/
def PyVal.beq : PyVal → PyVal → Bool
  | .str a, .str b => a == b
  | .num a, .num b => a == b
  | .none, .none => true
  | .list a, .list b =>
      match a, b with
      | [], [] => true
      | x :: xs, y :: ys => PyVal.beq x y && PyVal.beq (.list xs) (.list ys)
      | _, _ => false
  | .dict a, .dict b =>
      match a, b with
      | [], [] => true
      | (k, x) :: xs, (l, y) :: ys =>
          k == l && PyVal.beq x y && PyVal.beq (.dict xs) (.dict ys)
      | _, _ => false
  | _, _ => false

/-! ## Indexing orchestrator (`indexing/indexing_service.py`) -/

/-- `IndexingResult` (indexing_service.py, lines 17–23): document id,
count of chunks submitted, and the per-backend result map.  The UUID is
modelled as a natural number; the `Dict[str, Dict[str, Any]]` map as an
association list in insertion order. -/
structure IndexingResult where
  docId : Nat
  chunkCount : Nat
  backends : List (String × PyVal)

/-- Pydantic attribute access on an `IndexingResult` instance: defined
fields yield their value, any other name raises `AttributeError`
(modelled by `Option.none`). -/
def IndexingResult.pyattr (r : IndexingResult) (name : String) : Option PyVal :=
  if name = "doc_id" then some (.num r.docId)
  else if name = "chunk_count" then some (.num r.chunkCount)
  else if name = "backends" then some (.dict r.backends)
  else Option.none

/-- `IndexingResult.model_dump()`: the record as a Python dict. -/
def IndexingResult.modelDump (r : IndexingResult) : PyVal :=
  .dict [("doc_id", .num r.docId), ("chunk_count", .num r.chunkCount),
         ("backends", .dict r.backends)]

/-- Configuration of the `IndexingService`: the development flag
`use_qdrant_dev` and whether a Qdrant client is configured. -/
structure IndexingServiceCfg where
  useQdrantDev : Bool
  hasQdrantClient : Bool

/-- `IndexingService._process_result` (lines 193–223): an exception from
a backend becomes `{"error": message, "status": "failed"}`; a successful
raw response is passed through unchanged. -/
def processResult (result : Except String PyVal) : PyVal :=
  match result with
  | .error e => .dict [("error", .str e), ("status", .str "failed")]
  | .ok r => r

/-- `IndexingService._index_to_qdrant` (lines 164–191): with no client
configured it returns a skipped marker without calling anything,
otherwise it performs the client call (whose outcome is `clientOut`). -/
def indexToQdrant (svc : IndexingServiceCfg) (clientOut : Except String PyVal) :
    Except String PyVal :=
  if svc.hasQdrantClient then clientOut
  else .ok (.dict [("status", .str "skipped"),
                   ("reason", .str "No Qdrant client configured")])

/-- `asyncio.gather(t0, t1, t2, return_exceptions=...)` on three awaited
outcomes: with `return_exceptions = true` every exception is captured as
a value and the gather itself never raises; with `false` the first
exception propagates. -/
def gather3 (returnExceptions : Bool)
    (t0 t1 t2 : Except String PyVal) :
    Except String (Except String PyVal × Except String PyVal × Except String PyVal) :=
  if returnExceptions then .ok (t0, t1, t2)
  else do
    let a ← t0
    let b ← t1
    let c ← t2
    pure (.ok a, .ok b, .ok c)

/-- `IndexingService.index_chunks` (lines 67–124).  The three backend
writes are dispatched concurrently and joined by `asyncio.gather` with
`return_exceptions=True`; each task's outcome (success payload or raised
exception) enters as an `Except` value.  When `use_qdrant_dev` is off the
third task is `asyncio.sleep(0)` (which returns `None`) and no `qdrant`
entry is added to the backend map. -/
def IndexingService.indexChunks (svc : IndexingServiceCfg)
    (docId : Nat) (chunkCount : Nat)
    (zepOut mem0Out qdrantOut : Except String PyVal) :
    Except String IndexingResult := do
  let qdrantTask : Except String PyVal :=
    if svc.useQdrantDev then indexToQdrant svc qdrantOut else .ok .none
  let (r0, r1, r2) ← gather3 true zepOut mem0Out qdrantTask
  let backends := [("zep", processResult r0), ("mem0", processResult r1)]
  let backends := if svc.useQdrantDev
    then backends ++ [("qdrant", processResult r2)]
    else backends
  pure { docId := docId, chunkCount := chunkCount, backends := backends }

/-- The backend key set the service is configured with: `zep` and `mem0`
always, `qdrant` exactly when the development flag is enabled. -/
def configuredBackends (svc : IndexingServiceCfg) : List String :=
  if svc.useQdrantDev then ["zep", "mem0", "qdrant"] else ["zep", "mem0"]

theorem indexChunks_ok (svc : IndexingServiceCfg) (docId chunkCount : Nat)
    (zepOut mem0Out qdrantOut : Except String PyVal) :
    IndexingService.indexChunks svc docId chunkCount zepOut mem0Out qdrantOut =
      .ok { docId := docId, chunkCount := chunkCount,
            backends :=
              if svc.useQdrantDev then
                [("zep", processResult zepOut), ("mem0", processResult mem0Out),
                 ("qdrant", processResult (indexToQdrant svc qdrantOut))]
              else
                [("zep", processResult zepOut), ("mem0", processResult mem0Out)] } := by
  unfold IndexingService.indexChunks gather3
  cases svc.useQdrantDev <;> simp [Bind.bind, Except.bind, pure, Except.pure]

/-- C2: the orchestrator returns normally for every combination of
backend outcomes, and the key set of the returned per-backend map equals
exactly the configured backend set: `{zep, mem0}` plus `qdrant` iff the
dev flag is enabled. -/
theorem indexChunks_total_and_complete (svc : IndexingServiceCfg)
    (docId chunkCount : Nat)
    (zepOut mem0Out qdrantOut : Except String PyVal) :
    (∃ r, IndexingService.indexChunks svc docId chunkCount zepOut mem0Out qdrantOut
        = .ok r) ∧
    ∀ r, IndexingService.indexChunks svc docId chunkCount zepOut mem0Out qdrantOut
        = .ok r → r.backends.map Prod.fst = configuredBackends svc := by
  rw [indexChunks_ok]
  refine ⟨⟨_, rfl⟩, ?_⟩
  intro r hr
  cases hr
  unfold configuredBackends
  cases svc.useQdrantDev <;> simp

/-- C3: each backend's slot in the orchestrator's result map is the
normalization of that backend's own outcome alone — an exception becomes
`{"error": message, "status": "failed"}`, a success payload passes
through unchanged — so one backend's failure never removes or alters the
slots of the others. -/
theorem indexChunks_failure_isolation (svc : IndexingServiceCfg)
    (docId chunkCount : Nat)
    (zepOut mem0Out qdrantOut : Except String PyVal)
    (r : IndexingResult)
    (hr : IndexingService.indexChunks svc docId chunkCount zepOut mem0Out qdrantOut
        = .ok r) :
    r.backends.lookup "zep" = some (processResult zepOut) ∧
    r.backends.lookup "mem0" = some (processResult mem0Out) ∧
    (svc.useQdrantDev = true →
      r.backends.lookup "qdrant" = some (processResult (indexToQdrant svc qdrantOut))) ∧
    (∀ e, processResult (.error e) =
      .dict [("error", .str e), ("status", .str "failed")]) ∧
    (∀ v, processResult (.ok v) = v) := by
  rw [indexChunks_ok] at hr
  cases hr
  refine ⟨?_, ?_, ?_, fun e => rfl, fun v => rfl⟩ <;>
    cases h : svc.useQdrantDev <;> simp [h, List.lookup]

/-- Witness for C3 at a concrete input: zep raises, mem0 succeeds, the
dev flag is on with a configured client. -/
theorem indexChunks_failure_isolation_witness :
    ((IndexingService.indexChunks ⟨true, true⟩ 5 3
        (.error "boom") (.ok (.dict [("status", .str "success")])) (.ok (.num 7)))
      = .ok { docId := 5, chunkCount := 3,
              backends := [("zep", .dict [("error", .str "boom"), ("status", .str "failed")]),
                           ("mem0", .dict [("status", .str "success")]),
                           ("qdrant", .num 7)] }) ∧
    (List.lookup "zep"
        [("zep", PyVal.dict [("error", .str "boom"), ("status", .str "failed")]),
         ("mem0", PyVal.dict [("status", .str "success")]),
         ("qdrant", PyVal.num 7)]
      = some (PyVal.dict [("error", .str "boom"), ("status", .str "failed")])) := by
  have h := indexChunks_ok ⟨true, true⟩ 5 3
      (.error "boom") (.ok (.dict [("status", .str "success")])) (.ok (.num 7))
  refine ⟨?_, ?_⟩
  · exact h
  · have h2 := indexChunks_failure_isolation ⟨true, true⟩ 5 3
        (.error "boom") (.ok (.dict [("status", .str "success")])) (.ok (.num 7))
        _ (by simpa [indexToQdrant, processResult] using h)
    exact h2.1

/-- Witness for C2 at a concrete input: dev flag off, zep raising. -/
theorem indexChunks_total_and_complete_witness :
    ∃ r, IndexingService.indexChunks ⟨false, false⟩ 1 2 (.error "x") (.ok .none) (.ok .none)
        = .ok r ∧ r.backends.map Prod.fst = configuredBackends ⟨false, false⟩ := by
  obtain ⟨⟨r, hr⟩, hc⟩ := indexChunks_total_and_complete ⟨false, false⟩ 1 2
      (.error "x") (.ok .none) (.ok .none)
  exact ⟨r, hr, hc r hr⟩

/-! ## Document chunker (`processing/document_processor.py`, `models.py`) -/

/-- The fields of `DocumentMeta` (models.py, lines 11–29) that the
chunker reads.  The UUID is modelled as a natural number. -/
structure DocumentMetaRec where
  id : Nat
  url : String
  title : String
  source : String
deriving DecidableEq

/-- A `Chunk` (models.py, lines 107–115) as built by
`DocumentProcessor.process_document`: the `id` field is drawn fresh from
the `uuid4()` supply (modelled as a counter that never repeats a value);
the metadata dict entries written by the processor (`title`, `source`,
`url`, `chunk_start`, `chunk_end`, `total_chunks`) are embedded as
fields; `embedding` is always `None` and is omitted. -/
structure ChunkRec where
  id : Nat
  docId : Nat
  text : List Char
  index : Nat
  title : String
  source : String
  url : String
  chunkStart : Nat
  chunkEnd : Nat
  totalChunks : Nat
deriving DecidableEq

/-- Validated processor state (document_processor.py, lines 32–34). -/
structure DocumentProcessorParams where
  chunk_size : Nat
  chunk_overlap : Nat
  max_chunks_per_doc : Nat
deriving DecidableEq

/-- Ceiling division, the value of `math.ceil(a / b)` for naturals with
`b > 0` (the chunker only divides by `chunk_size - chunk_overlap`, which
validation keeps positive). -/
def ceilDiv (a b : Nat) : Nat := (a + b - 1) / b

/-- The `total_chunks` metadata estimate (document_processor.py,
lines 138–139). -/
def totalChunksEstimate (p : DocumentProcessorParams) (len : Nat) : Nat :=
  min (ceilDiv len (p.chunk_size - p.chunk_overlap)) p.max_chunks_per_doc

/-- The loop's `end = min(start + self.chunk_size, text_length)`
(document_processor.py, line 123). -/
def chunkStop (cs len start : Nat) : Nat := min (start + cs) len

/-- One loop iteration's advance of `start` (document_processor.py,
lines 144–147): `end - overlap` when overlap applies and the chunk did
not reach the end of the text, else `end`. -/
def nextStart (cs ov len start : Nat) : Nat :=
  if 0 < ov ∧ chunkStop cs len start < len
  then chunkStop cs len start - ov
  else chunkStop cs len start

/-- The chunking loop of `DocumentProcessor.process_document`
(lines 105–147).  `fuel` is the number of chunks the loop may still
emit, i.e. `max_chunks_per_doc - chunk_index`; the loop stops when the
text is exhausted or the fuel (the chunk cap) runs out, silently
dropping any remaining tail. -/
def processGo (p : DocumentProcessorParams) (meta : DocumentMetaRec)
    (content : List Char) : Nat → Nat → Nat → Nat → List ChunkRec
  | _, _, _, 0 => []
  | start, idx, uid, fuel + 1 =>
    if start < content.length then
      { id := uid, docId := meta.id,
        text := (content.drop start).take
          (chunkStop p.chunk_size content.length start - start),
        index := idx, title := meta.title, source := meta.source,
        url := meta.url, chunkStart := start,
        chunkEnd := chunkStop p.chunk_size content.length start,
        totalChunks := totalChunksEstimate p content.length } ::
      processGo p meta content
        (nextStart p.chunk_size p.chunk_overlap content.length start)
        (idx + 1) (uid + 1) fuel
    else []

/-- `DocumentProcessor.process_document` (lines 92–157): chunk the text
starting at offset 0 with chunk index 0.  `uid` is the state of the
`uuid4()` supply on entry; the call consumes one fresh id per emitted
chunk, so the supply state after the call is `uid + number of chunks`. -/
def process_document (p : DocumentProcessorParams) (meta : DocumentMetaRec)
    (content : List Char) (uid : Nat) : List ChunkRec × Nat :=
  let cks := processGo p meta content 0 0 uid p.max_chunks_per_doc
  (cks, uid + cks.length)

/-- Every field of a chunk except the auto-generated `id`. -/
structure ChunkCore where
  docId : Nat
  text : List Char
  index : Nat
  title : String
  source : String
  url : String
  chunkStart : Nat
  chunkEnd : Nat
  totalChunks : Nat
deriving DecidableEq

/-- Forget the auto-generated `id` of a chunk. -/
def ChunkRec.core (c : ChunkRec) : ChunkCore :=
  { docId := c.docId, text := c.text, index := c.index, title := c.title,
    source := c.source, url := c.url, chunkStart := c.chunkStart,
    chunkEnd := c.chunkEnd, totalChunks := c.totalChunks }

theorem processGo_core_uid (p : DocumentProcessorParams) (meta : DocumentMetaRec)
    (content : List Char) (fuel start idx uidA uidB : Nat) :
    (processGo p meta content start idx uidA fuel).map ChunkRec.core =
    (processGo p meta content start idx uidB fuel).map ChunkRec.core := by
  induction fuel generalizing start idx uidA uidB with
  | zero => rfl
  | succ n ih =>
      unfold processGo
      by_cases h : start < content.length
      · simp only [if_pos h, List.map_cons]
        exact congrArg _ (ih _ _ _ _)
      · simp [if_neg h]

/-- C9 (amended): two chunker runs with identical document metadata,
content and parameters agree on every chunk field except the
auto-generated per-chunk `id` (which `uuid4()` draws fresh on each
call), in particular on texts, indices and offsets, in the same order. -/
theorem process_document_deterministic_modulo_ids
    (p : DocumentProcessorParams) (meta : DocumentMetaRec)
    (content : List Char) (uidA uidB : Nat) :
    ((process_document p meta content uidA).1.map ChunkRec.core) =
    ((process_document p meta content uidB).1.map ChunkRec.core) := by
  unfold process_document
  exact processGo_core_uid p meta content p.max_chunks_per_doc 0 0 uidA uidB

/-- C9 counterexample: running the chunker twice in succession on
identical inputs (the `uuid4()` supply advancing between the calls, as
it does across any two calls in one process) yields chunk sequences that
are NOT equal on every field — the chunks' `id` fields differ — even
though all other fields coincide. -/
theorem process_document_ids_differ_counterexample :
    (process_document ⟨512, 128, 1000⟩ ⟨7, "http://example.com/", "t", "s"⟩
        ['h', 'i'] 0).1.map ChunkRec.id = [0] ∧
    (process_document ⟨512, 128, 1000⟩ ⟨7, "http://example.com/", "t", "s"⟩
        ['h', 'i']
        (process_document ⟨512, 128, 1000⟩ ⟨7, "http://example.com/", "t", "s"⟩
          ['h', 'i'] 0).2).1.map ChunkRec.id = [1] ∧
    (process_document ⟨512, 128, 1000⟩ ⟨7, "http://example.com/", "t", "s"⟩
        ['h', 'i'] 0).1 ≠
    (process_document ⟨512, 128, 1000⟩ ⟨7, "http://example.com/", "t", "s"⟩
        ['h', 'i']
        (process_document ⟨512, 128, 1000⟩ ⟨7, "http://example.com/", "t", "s"⟩
          ['h', 'i'] 0).2).1 := by
  refine ⟨rfl, rfl, ?_⟩
  decide

/-- Validity of `ProcessingParameters` (models.py, lines 32–87): field
bounds plus the overlap invariants (`2 * ov ≤ cs` is
`ov ≤ floor(cs * 0.5)` for naturals). -/
def ProcessingParametersValid (p : DocumentProcessorParams) : Prop :=
  100 ≤ p.chunk_size ∧ p.chunk_size ≤ 8192 ∧
  p.chunk_overlap ≤ 4096 ∧ p.chunk_overlap < p.chunk_size ∧
  2 * p.chunk_overlap ≤ p.chunk_size ∧
  1 ≤ p.max_chunks_per_doc ∧ p.max_chunks_per_doc ≤ 10000

instance (p : DocumentProcessorParams) : Decidable (ProcessingParametersValid p) := by
  unfold ProcessingParametersValid; infer_instance

/-- The number of chunks the loop would emit with no chunk cap, counted
with a fuel argument (the loop advances `start` by at least one per
chunk, so `len` steps of fuel always suffice). -/
def ucountF (cs ov len : Nat) : Nat → Nat → Nat
  | _, 0 => 0
  | start, fuel + 1 =>
    if start < len then 1 + ucountF cs ov len (nextStart cs ov len start) fuel
    else 0

/-- The number of chunks the content requires when no cap truncates. -/
def requiredChunks (cs ov len : Nat) : Nat := ucountF cs ov len 0 len

theorem nextStart_gt (cs ov len start : Nat) (hcs : 0 < cs) (hov : ov < cs)
    (h : start < len) : start < nextStart cs ov len start := by
  unfold nextStart chunkStop
  split <;> omega

theorem ucountF_eq_zero (cs ov len start F : Nat) (h : len ≤ start) :
    ucountF cs ov len start F = 0 := by
  cases F with
  | zero => rfl
  | succ n => unfold ucountF; rw [if_neg (by omega)]

theorem ucountF_stable (cs ov len : Nat) (hcs : 0 < cs) (hov : ov < cs) :
    ∀ f₁ f₂ start, len - start ≤ f₁ → len - start ≤ f₂ →
      ucountF cs ov len start f₁ = ucountF cs ov len start f₂ := by
  intro f₁
  induction f₁ with
  | zero =>
      intro f₂ start h₁ h₂
      rw [ucountF_eq_zero _ _ _ _ _ (by omega), ucountF_eq_zero _ _ _ _ _ (by omega)]
  | succ n ih =>
      intro f₂ start h₁ h₂
      by_cases hs : start < len
      · cases f₂ with
        | zero => omega
        | succ m =>
            unfold ucountF
            rw [if_pos hs, if_pos hs]
            have hnext := nextStart_gt cs ov len start hcs hov hs
            have hrec := ih m (nextStart cs ov len start) (by omega) (by omega)
            omega
      · rw [ucountF_eq_zero _ _ _ _ _ (by omega), ucountF_eq_zero _ _ _ _ _ (by omega)]

theorem processGo_length_le (p : DocumentProcessorParams) (meta : DocumentMetaRec)
    (content : List Char) :
    ∀ fuel start idx uid,
      (processGo p meta content start idx uid fuel).length ≤ fuel := by
  intro fuel
  induction fuel with
  | zero => intro start idx uid; exact Nat.le_refl 0
  | succ n ih =>
      intro start idx uid
      unfold processGo
      split
      · simpa [List.length_cons] using Nat.succ_le_succ (ih _ _ _)
      · exact Nat.zero_le _

theorem processGo_length_of_cap (p : DocumentProcessorParams) (meta : DocumentMetaRec)
    (content : List Char)
    (hcs : 0 < p.chunk_size) (hov : p.chunk_overlap < p.chunk_size) :
    ∀ fuel start idx uid F, content.length - start ≤ F →
      fuel < ucountF p.chunk_size p.chunk_overlap content.length start F →
      (processGo p meta content start idx uid fuel).length = fuel := by
  intro fuel
  induction fuel with
  | zero => intro start idx uid F hF hlt; rfl
  | succ n ih =>
      intro start idx uid F hF hlt
      by_cases hs : start < content.length
      · cases F with
        | zero => simp [ucountF] at hlt
        | succ m =>
            unfold ucountF at hlt
            rw [if_pos hs] at hlt
            unfold processGo
            rw [if_pos hs, List.length_cons]
            have hnext := nextStart_gt p.chunk_size p.chunk_overlap
              content.length start hcs hov hs
            have hrec := ih
              (nextStart p.chunk_size p.chunk_overlap content.length start)
              (idx + 1) (uid + 1) m (by omega) (by omega)
            omega
      · rw [ucountF_eq_zero _ _ _ _ _ (by omega)] at hlt
        omega

theorem processGo_map_index (p : DocumentProcessorParams) (meta : DocumentMetaRec)
    (content : List Char) :
    ∀ fuel start idx uid,
      (processGo p meta content start idx uid fuel).map ChunkRec.index =
      List.range' idx (processGo p meta content start idx uid fuel).length := by
  intro fuel
  induction fuel with
  | zero => intro start idx uid; rfl
  | succ n ih =>
      intro start idx uid
      unfold processGo
      split
      · rw [List.map_cons, List.length_cons, List.range'_succ]
        exact congrArg _ (ih _ _ _)
      · rfl

/-- C7: with `max_chunks_per_doc = k` and content requiring more than
`k` chunks, the chunker emits exactly `k` chunks whose indices are
`0, …, k-1` in order (so the last has zero-based index `k-1`), the
remaining tail being dropped without error. -/
theorem process_document_truncation (p : DocumentProcessorParams)
    (meta : DocumentMetaRec) (content : List Char) (uid : Nat)
    (hvalid : ProcessingParametersValid p)
    (hreq : p.max_chunks_per_doc <
      requiredChunks p.chunk_size p.chunk_overlap content.length) :
    ((process_document p meta content uid).1).length = p.max_chunks_per_doc ∧
    ((process_document p meta content uid).1).map ChunkRec.index =
      List.range p.max_chunks_per_doc := by
  obtain ⟨h₁, h₂, h₃, h₄, h₅, h₆, h₇⟩ := hvalid
  have hlen : ((process_document p meta content uid).1).length
      = p.max_chunks_per_doc := by
    unfold process_document
    exact processGo_length_of_cap p meta content (by omega) h₄
      p.max_chunks_per_doc 0 0 uid content.length (by omega) hreq
  refine ⟨hlen, ?_⟩
  have hmap := processGo_map_index p meta content p.max_chunks_per_doc 0 0 uid
  unfold process_document at hlen ⊢
  rw [hmap, hlen, List.range_eq_range']

/-- Witness for C7: `chunk_size = 100`, no overlap, cap `k = 2`,
content of length 201 (which requires 3 chunks). -/
theorem process_document_truncation_witness :
    ProcessingParametersValid ⟨100, 0, 2⟩ ∧
    2 < requiredChunks 100 0 201 ∧
    ((process_document ⟨100, 0, 2⟩ ⟨1, "u", "t", "s"⟩
        (List.replicate 201 'a') 0).1).length = 2 ∧
    ((process_document ⟨100, 0, 2⟩ ⟨1, "u", "t", "s"⟩
        (List.replicate 201 'a') 0).1).map ChunkRec.index = List.range 2 := by
  have h := process_document_truncation ⟨100, 0, 2⟩ ⟨1, "u", "t", "s"⟩
    (List.replicate 201 'a') 0 (by decide) (by decide)
  exact ⟨by decide, by decide, h.1, h.2⟩

theorem processGo_cons_fields (p : DocumentProcessorParams) (meta : DocumentMetaRec)
    (content : List Char) (start idx uid fuel : Nat) (c : ChunkRec)
    (rest : List ChunkRec)
    (h : processGo p meta content start idx uid fuel = c :: rest) :
    c.chunkStart = start ∧
    c.chunkEnd = chunkStop p.chunk_size content.length start ∧
    start < content.length := by
  cases fuel with
  | zero => exact absurd h (by simp [processGo])
  | succ n =>
      unfold processGo at h
      by_cases hs : start < content.length
      · rw [if_pos hs] at h
        obtain ⟨h₁, -⟩ := List.cons.inj h
        subst h₁
        exact ⟨rfl, rfl, hs⟩
      · rw [if_neg hs] at h
        exact absurd h (by simp)

theorem chunkStop_sub_nextStart (cs ov len start : Nat)
    (hovlt : ov < cs) (hovpos : 0 < ov)
    (hlt : nextStart cs ov len start < len) :
    chunkStop cs len start - nextStart cs ov len start = ov := by
  unfold nextStart chunkStop at hlt ⊢
  rcases Nat.lt_or_ge (start + cs) len with h1 | h1
  · have hmin : min (start + cs) len = start + cs := Nat.min_eq_left (Nat.le_of_lt h1)
    rw [hmin]
    rw [if_pos ⟨hovpos, h1⟩]
    omega
  · have hmin : min (start + cs) len = len := Nat.min_eq_right h1
    rw [hmin] at hlt
    rw [if_neg (fun hh => Nat.lt_irrefl _ hh.2)] at hlt
    exact absurd hlt (Nat.lt_irrefl _)

theorem processGo_adjacent (p : DocumentProcessorParams) (meta : DocumentMetaRec)
    (content : List Char)
    (_hcs : 0 < p.chunk_size) (hovlt : p.chunk_overlap < p.chunk_size)
    (hovpos : 0 < p.chunk_overlap) :
    ∀ fuel start idx uid i ci cj,
      (processGo p meta content start idx uid fuel)[i]? = some ci →
      (processGo p meta content start idx uid fuel)[i + 1]? = some cj →
      ci.chunkEnd - cj.chunkStart = p.chunk_overlap := by
  intro fuel
  induction fuel with
  | zero => intro start idx uid i ci cj h₁ h₂; simp [processGo] at h₁
  | succ n ih =>
      intro start idx uid i ci cj h₁ h₂
      by_cases hs : start < content.length
      · unfold processGo at h₁ h₂
        rw [if_pos hs] at h₁ h₂
        cases i with
        | zero =>
            rw [List.getElem?_cons_zero] at h₁
            rw [List.getElem?_cons_succ] at h₂
            injection h₁ with h₁
            cases hr : processGo p meta content
                (nextStart p.chunk_size p.chunk_overlap content.length start)
                (idx + 1) (uid + 1) n with
            | nil => rw [hr] at h₂; simp at h₂
            | cons c' rest' =>
                rw [hr] at h₂
                rw [List.getElem?_cons_zero] at h₂
                injection h₂ with h₂
                obtain ⟨hstart', -, hlt'⟩ := processGo_cons_fields p meta content
                  _ (idx + 1) (uid + 1) n c' rest' hr
                have hciE : ci.chunkEnd = chunkStop p.chunk_size content.length start := by
                  rw [← h₁]
                have hcjS : cj.chunkStart =
                    nextStart p.chunk_size p.chunk_overlap content.length start := by
                  rw [← h₂]; exact hstart'
                rw [hciE, hcjS]
                exact chunkStop_sub_nextStart _ _ _ _ hovlt hovpos hlt'
        | succ j =>
            rw [List.getElem?_cons_succ] at h₁ h₂
            exact ih _ (idx + 1) (uid + 1) j ci cj h₁ h₂
      · unfold processGo at h₁
        rw [if_neg hs] at h₁
        simp at h₁

/-- C8: for valid parameters with positive overlap, any two adjacent
emitted chunks `i`, `i+1` with `i+1` not the last chunk satisfy
`chunk[i].chunk_end - chunk[i+1].chunk_start = chunk_overlap` exactly. -/
theorem process_document_overlap_law (p : DocumentProcessorParams)
    (meta : DocumentMetaRec) (content : List Char) (uid : Nat)
    (hvalid : ProcessingParametersValid p) (hov : 0 < p.chunk_overlap)
    (i : Nat) (ci cj : ChunkRec)
    (h₁ : ((process_document p meta content uid).1)[i]? = some ci)
    (h₂ : ((process_document p meta content uid).1)[i + 1]? = some cj)
    (_hnotlast : i + 2 < ((process_document p meta content uid).1).length) :
    ci.chunkEnd - cj.chunkStart = p.chunk_overlap := by
  obtain ⟨hv₁, hv₂, hv₃, hv₄, hv₅, hv₆, hv₇⟩ := hvalid
  unfold process_document at h₁ h₂
  exact processGo_adjacent p meta content (by omega) hv₄ hov
    p.max_chunks_per_doc 0 0 uid i ci cj h₁ h₂

/-- Witness for C8: `chunk_size = 100`, `chunk_overlap = 50`, content of
length 300; the first two of the five chunks overlap by exactly 50. -/
theorem process_document_overlap_law_witness :
    ∃ ci cj : ChunkRec,
      ((process_document ⟨100, 50, 1000⟩ ⟨1, "u", "t", "s"⟩
          (List.replicate 160 'a') 0).1)[0]? = some ci ∧
      ((process_document ⟨100, 50, 1000⟩ ⟨1, "u", "t", "s"⟩
          (List.replicate 160 'a') 0).1)[1]? = some cj ∧
      ci.chunkEnd - cj.chunkStart = 50 := by
  cases hc : ((process_document ⟨100, 50, 1000⟩ ⟨1, "u", "t", "s"⟩
      (List.replicate 160 'a') 0).1)[0]? with
  | none => exact absurd hc (by decide)
  | some ci =>
      cases hc' : ((process_document ⟨100, 50, 1000⟩ ⟨1, "u", "t", "s"⟩
          (List.replicate 160 'a') 0).1)[1]? with
      | none => exact absurd hc' (by decide)
      | some cj =>
          exact ⟨ci, cj, rfl, rfl,
            process_document_overlap_law ⟨100, 50, 1000⟩ ⟨1, "u", "t", "s"⟩
              (List.replicate 160 'a') 0 (by decide) (by decide) 0 ci cj hc hc'
              (by decide)⟩

/-! ## Token bucket (`utils/rate_limiting.py`) -/

/-- `TokenBucket` state (rate_limiting.py, lines 77–88): refill rate,
capacity (an `int` in the source, held here in `ℚ` alongside the float
token count), current token count, and the monotonic-clock reading of
the last refill.  Float arithmetic is modelled by exact rationals. -/
structure TokenBucket where
  rate : ℚ
  capacity : ℚ
  tokens : ℚ
  lastRefill : ℚ
deriving DecidableEq

/-- `TokenBucket.__init__`: a bucket starts full
(`self._tokens = float(capacity)`). -/
def TokenBucket.init (rate : ℚ) (capacity : Int) (now : ℚ) : TokenBucket :=
  { rate := rate, capacity := (capacity : ℚ), tokens := (capacity : ℚ),
    lastRefill := now }

/-- `TokenBucket._refill` (lines 90–98):
`tokens = min(capacity, tokens + (now - last_refill) * rate)`. -/
def TokenBucket.refill (b : TokenBucket) (now : ℚ) : TokenBucket :=
  { b with tokens := min b.capacity (b.tokens + (now - b.lastRefill) * b.rate),
           lastRefill := now }

/-- Python exception values raised by the modelled code. -/
inductive PyErr where
  | valueError (msg : String)
deriving DecidableEq

/-- `TokenBucket.consume` (lines 100–125) at monotonic time `now`:
rejects a non-positive request with `ValueError`; otherwise refills,
then either deducts the requested tokens and grants, or reports the wait
time `(tokens - self._tokens) / self._rate` leaving the refilled state
untouched. -/
def TokenBucket.consume (b : TokenBucket) (tokens : Int) (now : ℚ) :
    Except PyErr (Bool × ℚ × TokenBucket) :=
  if tokens ≤ 0 then .error (.valueError "Token count must be positive")
  else if (tokens : ℚ) ≤ (b.refill now).tokens then
    .ok (true, 0, { b.refill now with tokens := (b.refill now).tokens - (tokens : ℚ) })
  else
    .ok (false, ((tokens : ℚ) - (b.refill now).tokens) / b.rate, b.refill now)

/-- The `tokens` property read (lines 127–136): triggers a refill, then
reports the current count. -/
def TokenBucket.tokensRead (b : TokenBucket) (now : ℚ) : ℚ × TokenBucket :=
  ((b.refill now).tokens, b.refill now)

/-- C4: `consume(n)` fails with `ValueError` for `n ≤ 0`; for `n > 0`,
after refill it deducts exactly `n` and returns `(true, 0)` when the
refilled count covers `n`, and otherwise returns
`(false, (n - tokens) / rate)` deducting nothing. -/
theorem consume_spec (b : TokenBucket) (n : Int) (now : ℚ) :
    (n ≤ 0 →
      b.consume n now = .error (.valueError "Token count must be positive")) ∧
    (0 < n →
      ((n : ℚ) ≤ (b.refill now).tokens →
        b.consume n now =
          .ok (true, 0,
            { b.refill now with tokens := (b.refill now).tokens - (n : ℚ) })) ∧
      ((b.refill now).tokens < (n : ℚ) →
        b.consume n now =
          .ok (false, ((n : ℚ) - (b.refill now).tokens) / b.rate, b.refill now))) := by
  refine ⟨?_, ?_⟩
  · intro h
    unfold TokenBucket.consume
    rw [if_pos h]
  · intro hn
    constructor
    · intro hle
      unfold TokenBucket.consume
      rw [if_neg (by omega), if_pos hle]
    · intro hlt
      unfold TokenBucket.consume
      rw [if_neg (by omega), if_neg (not_le.mpr hlt)]

/-- Witness for C4: bucket with rate 2, capacity 10, 5 tokens, refilled
over one second to 7 tokens; requests of 0, 3 and 20 tokens. -/
theorem consume_spec_witness :
    TokenBucket.consume ⟨2, 10, 5, 0⟩ 0 1
      = .error (.valueError "Token count must be positive") ∧
    TokenBucket.consume ⟨2, 10, 5, 0⟩ 3 1 = .ok (true, 0, ⟨2, 10, 4, 1⟩) ∧
    TokenBucket.consume ⟨2, 10, 5, 0⟩ 20 1 = .ok (false, 13/2, ⟨2, 10, 7, 1⟩) := by
  have hrefill : TokenBucket.refill ⟨2, 10, 5, 0⟩ 1 = ⟨2, 10, 7, 1⟩ := by
    unfold TokenBucket.refill
    have h7 : (5 + (1 - 0) * 2 : ℚ) = 7 := by norm_num
    have hm : min (10 : ℚ) (5 + (1 - 0) * 2) = 7 := by
      rw [h7]; exact min_eq_right (by norm_num)
    rw [hm]
  have h0 := consume_spec ⟨2, 10, 5, 0⟩ 0 1
  have h3 := consume_spec ⟨2, 10, 5, 0⟩ 3 1
  have h20 := consume_spec ⟨2, 10, 5, 0⟩ 20 1
  refine ⟨h0.1 (by decide), ?_, ?_⟩
  · have hle : ((3 : Int) : ℚ) ≤ (TokenBucket.refill ⟨2, 10, 5, 0⟩ 1).tokens := by
      rw [hrefill]; norm_num
    have h := (h3.2 (by decide)).1 hle
    rw [h, hrefill]
    norm_num [Except.ok.injEq, Prod.mk.injEq, TokenBucket.mk.injEq]
  · have hlt : (TokenBucket.refill ⟨2, 10, 5, 0⟩ 1).tokens < ((20 : Int) : ℚ) := by
      rw [hrefill]; norm_num
    have h := (h20.2 (by decide)).2 hlt
    rw [h, hrefill]
    norm_num [Except.ok.injEq, Prod.mk.injEq, TokenBucket.mk.injEq]

/-- The token-count invariant of the specification:
`0 ≤ tokens ≤ capacity`. -/
def TokenBucket.WellFormed (b : TokenBucket) : Prop :=
  0 ≤ b.tokens ∧ b.tokens ≤ b.capacity

/-- C5: for positive rate and capacity, `0 ≤ tokens ≤ capacity` holds
after initialization and is preserved by refill, by consume (granted or
denied), and by the `tokens` property read, for every non-negative
elapsed time since the last refill. -/
theorem tokenBucket_invariant (rate : ℚ) (capacity : Int) (t0 : ℚ)
    (b : TokenBucket) (now : ℚ) (n : Int) :
    (0 < capacity → (TokenBucket.init rate capacity t0).WellFormed) ∧
    (0 < b.rate → b.lastRefill ≤ now → b.WellFormed →
      (b.refill now).WellFormed ∧
      (∀ g w b₂, b.consume n now = .ok (g, w, b₂) → b₂.WellFormed) ∧
      ((b.tokensRead now).2).WellFormed) := by
  constructor
  · intro hc
    refine ⟨?_, le_refl _⟩
    have : (0 : ℚ) < (capacity : ℚ) := by exact_mod_cast hc
    exact this.le
  · intro hr hnow hwf
    obtain ⟨hwf₁, hwf₂⟩ := hwf
    have hΔ : 0 ≤ (now - b.lastRefill) * b.rate :=
      mul_nonneg (by linarith) hr.le
    have hro : (b.refill now).WellFormed := by
      refine ⟨le_min (by linarith) (by linarith), min_le_left _ _⟩
    refine ⟨hro, ?_, hro⟩
    intro g w b₂ h
    unfold TokenBucket.consume at h
    split at h
    · exact absurd h (by simp)
    · rename_i hnpos
      split at h
      · rename_i hle
        simp only [Except.ok.injEq, Prod.mk.injEq] at h
        obtain ⟨-, -, hb₂⟩ := h
        subst hb₂
        have hn' : (0 : ℚ) ≤ (n : ℚ) := by
          have : 0 < n := by omega
          exact_mod_cast this.le
        have h2 := hro.2
        constructor
        · show (0 : ℚ) ≤ (b.refill now).tokens - (n : ℚ)
          linarith
        · show (b.refill now).tokens - (n : ℚ) ≤ (b.refill now).capacity
          linarith
      · simp only [Except.ok.injEq, Prod.mk.injEq] at h
        obtain ⟨-, -, hb₂⟩ := h
        subst hb₂
        exact hro

/-- Witness for C5: a fresh bucket of capacity 5, and a bucket
`⟨rate 1, capacity 5, tokens 2, last refill 0⟩` refilled, consumed from
and read at time 1. -/
theorem tokenBucket_invariant_witness :
    (TokenBucket.init 1 5 0).WellFormed ∧
    (TokenBucket.refill ⟨1, 5, 2, 0⟩ 1).WellFormed ∧
    (TokenBucket.consume ⟨1, 5, 2, 0⟩ 1 1 = .ok (true, 0, ⟨1, 5, 2, 1⟩)) ∧
    TokenBucket.WellFormed ⟨1, 5, 2, 1⟩ ∧
    ((TokenBucket.tokensRead ⟨1, 5, 2, 0⟩ 1).2).WellFormed := by
  have hrefill : TokenBucket.refill ⟨1, 5, 2, 0⟩ 1 = ⟨1, 5, 3, 1⟩ := by
    unfold TokenBucket.refill
    have h3 : (2 + (1 - 0) * 1 : ℚ) = 3 := by norm_num
    have hm : min (5 : ℚ) (2 + (1 - 0) * 1) = 3 := by
      rw [h3]; exact min_eq_right (by norm_num)
    rw [hm]
  have heq : TokenBucket.consume ⟨1, 5, 2, 0⟩ 1 1 = .ok (true, 0, ⟨1, 5, 2, 1⟩) := by
    unfold TokenBucket.consume
    rw [hrefill]
    rw [if_neg (by decide : ¬ (1 : Int) ≤ 0)]
    rw [if_pos (show ((1 : Int) : ℚ) ≤ TokenBucket.tokens ⟨1, 5, 3, 1⟩ by norm_num)]
    norm_num [Except.ok.injEq, Prod.mk.injEq, TokenBucket.mk.injEq]
  have h := tokenBucket_invariant 1 5 0 ⟨1, 5, 2, 0⟩ 1 1
  have h2 := h.2 (by norm_num) (by norm_num) ⟨by norm_num, by norm_num⟩
  exact ⟨h.1 (by decide), h2.1, heq, h2.2.1 true 0 ⟨1, 5, 2, 1⟩ heq, h2.2.2⟩

/-! ## ProcessingParameters validation (`models.py`) -/

/-- An error of `ProcessingParameters.validate_overlap` (models.py,
lines 66–87), carrying the data interpolated into the message: the
offending overlap, the chunk size, and the maximum allowed overlap the
message reports.  `geSize` is the `overlap >= chunk_size` check,
`gtHalfSize` the 50%-cap check. -/
inductive OverlapViolation where
  | geSize (v cs maxAllowed : Int)
  | gtHalfSize (v cs maxAllowed : Int)
deriving DecidableEq

/-- `math.floor(chunk_size * 0.5)` on an integer chunk size. -/
def floorHalf (cs : Int) : Int := Int.fdiv cs 2

/-- `ProcessingParameters.validate_overlap` (models.py, lines 66–87):
the `v >= chunk_size` check runs first and raises immediately (reporting
`max(chunk_size - 1, 0)` as the maximum), so only the first violated
constraint is ever reported; only then is the 50% cap checked (reporting
the cap as the maximum).  `chunk_size_opt` models
`info.data.get('chunk_size', 512)`: the already-validated chunk size
when its own validation passed, else the default 512. -/
def validate_overlap (chunk_size_opt : Option Int) (v : Int) :
    Except OverlapViolation Int :=
  let cs := chunk_size_opt.getD 512
  if cs ≤ v then .error (.geSize v cs (max (cs - 1) 0))
  else if floorHalf cs < v then .error (.gtHalfSize v cs (floorHalf cs))
  else .ok v

/-- A pydantic field error: a `Field(ge=…, le=…)` bounds violation or
the custom overlap validator's error. -/
inductive FieldError where
  | outOfRange (field : String) (lo hi v : Int)
  | overlap (e : OverlapViolation)
deriving DecidableEq

/-- Pydantic `Field(ge=lo, le=hi)` bounds check on one field. -/
def checkBounds (field : String) (lo hi v : Int) : Except FieldError Int :=
  if v < lo then .error (.outOfRange field lo hi v)
  else if hi < v then .error (.outOfRange field lo hi v)
  else .ok v

/-- The validated `ProcessingParameters` record (models.py,
lines 32–59). -/
structure ProcessingParameters where
  chunk_size : Int
  chunk_overlap : Int
  max_chunks_per_doc : Int
deriving DecidableEq

/-- The error list contributed by one field's validation outcome. -/
def errsOf {α : Type} : Except FieldError α → List FieldError
  | .error e => [e]
  | .ok _ => []

/-- Construction of `ProcessingParameters` under pydantic-v2 semantics:
each field is validated independently (bounds first, then the field's
after-validator, skipped when its bounds fail); the errors of all fields
are collected and reported together, in field order;
`validate_overlap` reads the validated `chunk_size` when available and
falls back to the default 512. -/
def ProcessingParameters.build (cs ov mc : Int) :
    Except (List FieldError) ProcessingParameters :=
  let csR := checkBounds "chunk_size" 100 8192 cs
  let ovR : Except FieldError Int :=
    match checkBounds "chunk_overlap" 0 4096 ov with
    | .error e => .error e
    | .ok v =>
        match validate_overlap csR.toOption v with
        | .error e => .error (.overlap e)
        | .ok v' => .ok v'
  let mcR := checkBounds "max_chunks_per_doc" 1 10000 mc
  match csR, ovR, mcR with
  | .ok a, .ok b, .ok c =>
      .ok { chunk_size := a, chunk_overlap := b, max_chunks_per_doc := c }
  | _, _, _ => .error (errsOf csR ++ errsOf ovR ++ errsOf mcR)

/-- `DocumentProcessor.__init__` (document_processor.py, lines 19–77):
constructs `ProcessingParameters` and re-raises every collected pydantic
field error inside a `ValidationError`; on success the validated values
become the processor state. -/
def DocumentProcessor.init (cs ov mc : Int) :
    Except (List FieldError) DocumentProcessorParams :=
  match ProcessingParameters.build cs ov mc with
  | .error errs => .error errs
  | .ok p => .ok { chunk_size := p.chunk_size.toNat,
                   chunk_overlap := p.chunk_overlap.toNat,
                   max_chunks_per_doc := p.max_chunks_per_doc.toNat }

/-- Spec-side count of violated overlap constraints at `(cs, v)`: the
claim requires the error to enumerate all of them. -/
def specViolatedOverlapConstraints (cs v : Int) : Nat :=
  (if cs ≤ v then 1 else 0) + (if floorHalf cs < v then 1 else 0)

/-- Spec-side maximum allowed overlap: the smaller of `chunk_size - 1`
and the 50% cap. -/
def specMaxAllowedOverlap (cs : Int) : Int := min (cs - 1) (floorHalf cs)

/-- The maximum allowed overlap an overlap error reports. -/
def OverlapViolation.reportedMax : OverlapViolation → Int
  | .geSize _ _ m => m
  | .gtHalfSize _ _ m => m

/-- C6 counterexample: at `chunk_size = 500`, `chunk_overlap = 500` both
overlap constraints are violated, yet construction reports exactly one
error — the first check's — naming 499 as the maximum allowed value,
not the spec's `min(chunk_size - 1, 50% cap) = 250`. -/
theorem build_overlap_single_error_counterexample :
    specViolatedOverlapConstraints 500 500 = 2 ∧
    ProcessingParameters.build 500 500 1000 =
      .error [.overlap (.geSize 500 500 499)] ∧
    DocumentProcessor.init 500 500 1000 =
      .error [.overlap (.geSize 500 500 499)] ∧
    (OverlapViolation.geSize 500 500 499).reportedMax = 499 ∧
    specMaxAllowedOverlap 500 = 250 ∧ (499 : Int) ≠ 250 := by
  exact ⟨rfl, rfl, rfl, rfl, rfl, by decide⟩

theorem checkBounds_ok (field : String) (lo hi v : Int)
    (h₁ : lo ≤ v) (h₂ : v ≤ hi) : checkBounds field lo hi v = .ok v := by
  unfold checkBounds
  rw [if_neg (by omega), if_neg (by omega)]

/-- C6 (amended): parameters violating an overlap constraint (with the
three fields inside their pydantic bounds) always fail construction —
never silently clamp — with a single validation error on
`chunk_overlap`, the first violated check in source order: when
`overlap ≥ chunk_size` it reports maximum `chunk_size - 1`, and when
only the 50% cap is violated it reports the cap `floor(chunk_size/2)`. -/
theorem build_overlap_failure (cs ov mc : Int)
    (hcs₁ : 100 ≤ cs) (hcs₂ : cs ≤ 8192)
    (hov₁ : 0 ≤ ov) (hov₂ : ov ≤ 4096)
    (hmc₁ : 1 ≤ mc) (hmc₂ : mc ≤ 10000) :
    (cs ≤ ov →
      ProcessingParameters.build cs ov mc =
        .error [.overlap (.geSize ov cs (cs - 1))]) ∧
    (floorHalf cs < ov → ov < cs →
      ProcessingParameters.build cs ov mc =
        .error [.overlap (.gtHalfSize ov cs (floorHalf cs))]) := by
  have hcsR := checkBounds_ok "chunk_size" 100 8192 cs hcs₁ hcs₂
  have hovR := checkBounds_ok "chunk_overlap" 0 4096 ov hov₁ hov₂
  have hmcR := checkBounds_ok "max_chunks_per_doc" 1 10000 mc hmc₁ hmc₂
  constructor
  · intro hge
    unfold ProcessingParameters.build
    rw [hcsR, hovR, hmcR]
    unfold validate_overlap
    simp only [Except.toOption, Option.getD]
    rw [if_pos hge]
    simp only [errsOf, List.nil_append, List.append_nil]
    rw [max_eq_left (by omega)]
  · intro hhalf hlt
    unfold ProcessingParameters.build
    rw [hcsR, hovR, hmcR]
    unfold validate_overlap
    simp only [Except.toOption, Option.getD]
    rw [if_neg (by omega), if_pos hhalf]
    simp only [errsOf, List.nil_append, List.append_nil]

/-- Witness for C6 (amended) at `chunk_size = 500` with overlaps 500
(first check violated) and 300 (only the 50% cap violated). -/
theorem build_overlap_failure_witness :
    ProcessingParameters.build 500 500 1000 =
      .error [.overlap (.geSize 500 500 499)] ∧
    ProcessingParameters.build 500 300 1000 =
      .error [.overlap (.gtHalfSize 300 500 250)] := by
  have h1 := build_overlap_failure 500 500 1000 (by decide) (by decide)
    (by decide) (by decide) (by decide) (by decide)
  have h2 := build_overlap_failure 500 300 1000 (by decide) (by decide)
    (by decide) (by decide) (by decide) (by decide)
  exact ⟨h1.1 (by decide), h2.2 (by decide) (by decide)⟩

/-! ## Ingestion coordinator (`api/ingest.py`) -/

/-- One `update_job_status` call (ingest.py, lines 48–63): the stored
record is `{"status": status, "result": result or {}}`.  The job store
keeps only the last write per job. -/
structure JobUpdate where
  status : String
  result : PyVal

/-- The job's final record status under last-write-wins semantics. -/
def finalStatus : List JobUpdate → Option String
  | [] => Option.none
  | [u] => some u.status
  | _ :: rest => finalStatus rest

/-- The text of Python's missing-attribute error for an object of type
`typeName` and attribute `attr` (Python renders both in quotes). -/
def attributeErrorMsg (typeName attr : String) : String :=
  typeName ++ " object has no attribute " ++ attr

/-- The chunk-then-index phase of `process_and_index_document`
(ingest.py, lines 309–370), entered once content is in hand: updates the
job to `indexing`, runs the orchestrator, and on success logs completion
— a log call that reads `result.indexed_count`, an attribute
`IndexingResult` does not define, so the `AttributeError` lands in the
indexing error handler (line 361), which records `failed` and re-raises
into the top-level handler (line 372), which records `failed` again. -/
def processAndIndexRest (p : DocumentProcessorParams) (meta : DocumentMetaRec)
    (c : List Char) (uid : Nat) (svc : IndexingServiceCfg)
    (zepOut mem0Out qdrantOut : Except String PyVal)
    (u0 : List JobUpdate) : List JobUpdate :=
  let chunks := (process_document p meta c uid).1
  let u1 := u0 ++ [⟨"indexing", .dict []⟩]
  match IndexingService.indexChunks svc meta.id chunks.length
      zepOut mem0Out qdrantOut with
  | .error e =>
      u1 ++ [⟨"failed", .dict [("error", .str ("Indexing error: " ++ e))]⟩,
             ⟨"failed", .dict [("error", .str e),
                               ("error_type", .str "Exception")]⟩]
  | .ok result =>
      match result.pyattr "indexed_count" with
      | some _ => u1 ++ [⟨"completed", result.modelDump⟩]
      | Option.none =>
          u1 ++ [⟨"failed", .dict [("error", .str ("Indexing error: " ++
                    attributeErrorMsg "IndexingResult" "indexed_count"))]⟩,
                 ⟨"failed", .dict [("error", .str
                    (attributeErrorMsg "IndexingResult" "indexed_count")),
                   ("error_type", .str "AttributeError")]⟩]

/-- `process_and_index_document` (ingest.py, lines 242–385) as the
sequence of job-store updates it performs.  `content` is the inline
content handed to the background task; `fetchResult` is the outcome the
`fetch_func` collaborator would produce when called; the backend
outcomes feed the orchestrator as in `IndexingService.indexChunks`. -/
def process_and_index_document (p : DocumentProcessorParams)
    (meta : DocumentMetaRec) (content : Option (List Char))
    (fetchResult : Except String (List Char)) (uid : Nat)
    (svc : IndexingServiceCfg)
    (zepOut mem0Out qdrantOut : Except String PyVal) : List JobUpdate :=
  match content with
  | some c =>
      processAndIndexRest p meta c uid svc zepOut mem0Out qdrantOut
        [⟨"processing", .dict []⟩]
  | Option.none =>
      match fetchResult with
      | .error e =>
          [⟨"processing", .dict []⟩,
           ⟨"failed", .dict [("error", .str
                ("Failed to fetch document from URL: " ++ e)),
              ("error_type", .str "DependencyError")]⟩]
      | .ok fetched =>
          processAndIndexRest p meta fetched uid svc zepOut mem0Out qdrantOut
            [⟨"processing", .dict []⟩]

/-- C1 (code behavior): for every job whose content is available —
supplied inline or fetched successfully — the orchestrator's indexing
itself returns normally, yet the job's terminal status is `failed`, not
`completed`: the success-logging call reads the nonexistent
`indexed_count` attribute of `IndexingResult` and its `AttributeError`
is caught by the indexing error handler. -/
theorem process_and_index_document_never_completes
    (p : DocumentProcessorParams) (meta : DocumentMetaRec) (c : List Char)
    (fetchR : Except String (List Char)) (uid : Nat)
    (svc : IndexingServiceCfg) (zepOut mem0Out qdrantOut : Except String PyVal) :
    (∃ r, IndexingService.indexChunks svc meta.id
        ((process_document p meta c uid).1).length zepOut mem0Out qdrantOut
        = .ok r) ∧
    finalStatus (process_and_index_document p meta (some c) fetchR uid svc
        zepOut mem0Out qdrantOut) = some "failed" ∧
    finalStatus (process_and_index_document p meta Option.none (.ok c) uid svc
        zepOut mem0Out qdrantOut) = some "failed" := by
  refine ⟨⟨_, indexChunks_ok svc meta.id _ zepOut mem0Out qdrantOut⟩, ?_, ?_⟩ <;>
  · unfold process_and_index_document processAndIndexRest
    dsimp only
    rw [indexChunks_ok]
    simp [IndexingResult.pyattr, finalStatus]

/-- Python truthiness of the optional `content` query parameter: `None`
and the empty string are falsy. -/
def pyTruthyStr : Option String → Bool
  | Option.none => false
  | some s => s != ""

/-- The outcome of `ingest_document`'s input resolution: a synchronous
rejection, or acceptance carrying the content handed to the background
task together with the URL stored in the document metadata. -/
inductive IngestResolution where
  | rejected (message : String)
  | accepted (taskContent : Option String) (metaUrl : String)
deriving DecidableEq

/-- The url/content resolution of `ingest_document` (ingest.py,
lines 104–139): rejects when neither `url` nor truthy `content` is
present; when both are present the inline content is set to `None`
(discarded, with a warning logged) and the URL is kept; with content
only, the metadata URL is the local placeholder. -/
def ingest_document (reqUrl : Option String) (content : Option String) :
    IngestResolution :=
  if reqUrl.isNone && !(pyTruthyStr content) then
    .rejected
      "Either url in the request body or content query parameter must be provided."
  else
    let content := if reqUrl.isSome && pyTruthyStr content
      then Option.none else content
    match reqUrl with
    | some u => .accepted content u
    | Option.none => .accepted content "local://content-provided"

/-- C10: a submission carrying both a source URL and non-empty inline
content is accepted, the inline content is discarded (the background
task receives none, so it fetches from the document URL), and the
document URL is the supplied one. -/
theorem ingest_document_url_wins (u c : String) (hc : c ≠ "") :
    ingest_document (some u) (some c) = .accepted Option.none u := by
  unfold ingest_document
  simp [pyTruthyStr, hc]

/-- Witness for C10 at a concrete request. -/
theorem ingest_document_url_wins_witness :
    ingest_document (some "http://example.com/doc") (some "inline body")
      = .accepted Option.none "http://example.com/doc" :=
  ingest_document_url_wins "http://example.com/doc" "inline body" (by decide)

end NexusHarvester
